import Mathlib

/-! gitlab-webhook-discord: the formatter, the notifier and the handler of `main.go`

A shallow embedding of `src/main.go`.

* Go `string` values are Lean `String`s (sequences of Unicode characters; the
  strings of a decoded JSON body are valid UTF-8, so a substring of characters
  and a substring of bytes are the same thing for them).
* `strings.Builder` is a `String` accumulator, `WriteString` appends to it.
* `fmt.Sprintf` with `%s` verbs is concatenation of the format's literal pieces
  with the arguments, `%d` is the decimal rendering of the integer.
* The string literals are the ones of `main.go`, character for character.
* The effects of `sendToDiscord` and `webhookHandler` (the outbound POST, the
  calls on the `http.ResponseWriter`, the log) are returned as data.
-/

namespace GitlabWebhookDiscord

set_option maxRecDepth 100000

/-! ## Data model (`main.go`, lines 13-56) -/

structure Project where
  Name : String
  WebURL : String
deriving DecidableEq

structure Author where
  Name : String
  AvatarURL : String
deriving DecidableEq

structure Commit where
  ID : String
  Message : String
  Author : Author
  URL : String
deriving DecidableEq

structure Repository where
  Name : String
  URL : String
deriving DecidableEq

structure MergeRequest where
  Title : String
  State : String
  Author : Author
  URL : String
deriving DecidableEq

structure GitLabWebhookPayload where
  ObjectKind : String
  UserName : String
  UserAvatar : String
  Project : Project
  Commits : List Commit
  After : String
  Ref : String
  Repository : Repository
  MergeRequest : MergeRequest
deriving DecidableEq

structure DiscordMessage where
  Content : String
deriving DecidableEq

/-! ## The two functions of package `strings` that the formatter calls -/

/-- Go `strings.HasPrefix(s, pre)`: whether `s` begins with `pre`. -/
def HasPrefix (s pre : String) : Bool :=
  pre.data.isPrefixOf s.data

/-- Go `strings.TrimPrefix(s, pre)`: `s` without the leading `pre`; `s` itself
when `s` does not begin with `pre`. -/
def TrimPrefix (s pre : String) : String :=
  if HasPrefix s pre then String.mk (s.data.drop pre.data.length) else s

/-! ## `formatGitLabWebhookToDiscord` (`main.go`, lines 61-99) -/

/-- The body of the `for _, commit := range payload.Commits` loop (lines 74-77):
four `WriteString` calls on the builder `message`. -/
def writeCommit (userAvatar : String) (message : String) (commit : Commit) : String :=
  let message := message ++ ("â€¢ **Commit ID**: " ++ commit.ID ++ "\n")
  let message := message ++ ("  _by " ++ commit.Author.Name ++ "_ ![avatar](" ++ userAvatar ++ ")\n")
  let message := message ++ ("  [Commit URL](" ++ commit.URL ++ ")\n")
  let message := message ++ ("  ```\n" ++ commit.Message ++ "\n```")
  message

/-- Convert GitLab payload to a Discord Markdown message. -/
def formatGitLabWebhookToDiscord (payload : GitLabWebhookPayload) : String :=
  let message := ""
  if payload.ObjectKind = "push" then
    if HasPrefix payload.Ref "refs/tags/" then
      let tagName := TrimPrefix payload.Ref "refs/tags/"
      let message := message ++ ("**" ++ payload.UserName ++ "** pushed a new tag **" ++ tagName
        ++ "** in **" ++ payload.Project.Name ++ "**:\n\n")
      let message := message ++ ("ðŸ”— **View tag**: <" ++ payload.Project.WebURL ++ "/tags/"
        ++ tagName ++ ">\n")
      message
    else
      let message := message ++ ("**" ++ payload.UserName ++ "** pushed to branch **" ++ payload.Ref
        ++ "** in **" ++ payload.Project.Name ++ "**:\n\n")
      let message := payload.Commits.foldl (writeCommit payload.UserAvatar) message
      let message := message ++ ("ðŸ”— **View changes**: <" ++ payload.Project.WebURL ++ "/commits/"
        ++ payload.After ++ ">\n")
      message
  else if payload.ObjectKind = "merge_request" then
    let mr := payload.MergeRequest
    let message := message ++ ("**Merge Request**: **" ++ mr.Title ++ "** in **"
      ++ payload.Project.Name ++ "**\n")
    let message := message ++ ("State: **" ++ mr.State ++ "**\n")
    let message := message ++ ("Author: _" ++ mr.Author.Name ++ "_ ![avatar](" ++ payload.UserAvatar
      ++ ")\n")
    let message := message ++ ("ðŸ”— **View Merge Request**: <" ++ mr.URL ++ ">\n")
    message
  else if payload.ObjectKind = "repository_update" then
    let message := message ++ ("**Repository** **" ++ payload.Project.Name ++ "** was updated:\n")
    let message := message ++ ("Updated by _" ++ payload.UserName ++ "_ ![avatar]("
      ++ payload.UserAvatar ++ ")\n")
    let message := message ++ ("ðŸ”— **View Repository**: <" ++ payload.Project.WebURL ++ ">\n")
    message
  else
    let message := message ++ "Unhandled event type"
    message

/-! ## `sendToDiscord` (`main.go`, lines 102-119)

A Go `error` is represented by its text, `none` is `nil`. `json.Marshal` and
`http.Post` are parameters: the model is over what they return. -/

/-- Constant `http.StatusOK` of `net/http`. -/
def StatusOK : Int := 200

/-- Constant `http.StatusNoContent` of `net/http`. -/
def StatusNoContent : Int := 204

/-- Constant `http.StatusBadRequest` of `net/http`. -/
def StatusBadRequest : Int := 400

/-- Constant `http.StatusInternalServerError` of `net/http`. -/
def StatusInternalServerError : Int := 500

/-- The part of `*http.Response` that `sendToDiscord` reads. -/
structure Response where
  StatusCode : Int
deriving DecidableEq

/-- One call `http.Post(url, contentType, body)`. -/
structure PostCall where
  url : String
  contentType : String
  body : String
deriving DecidableEq

/-- What a call of `sendToDiscord` leaves: the `error` it returns and the
`http.Post` calls it made, in order. -/
structure SendResult where
  err : Option String
  posts : List PostCall
deriving DecidableEq

/-- Send message to Discord. -/
def sendToDiscord (discordWebhookURL : String)
    (jsonMarshal : DiscordMessage → Except String String)
    (httpPost : String → String → String → Except String Response)
    (message : String) : SendResult :=
  let discordMessage : DiscordMessage := { Content := message }
  match jsonMarshal discordMessage with
  | .error err => { err := some err, posts := [] }
  | .ok body =>
    match httpPost discordWebhookURL "application/json" body with
    | .error err =>
      { err := some err, posts := [⟨discordWebhookURL, "application/json", body⟩] }
    | .ok resp =>
      if resp.StatusCode ≠ StatusOK ∧ resp.StatusCode ≠ StatusNoContent then
        { err := some ("failed to send message to Discord, status code: "
                        ++ toString resp.StatusCode),
          posts := [⟨discordWebhookURL, "application/json", body⟩] }
      else
        { err := none, posts := [⟨discordWebhookURL, "application/json", body⟩] }

/-! ## `webhookHandler` (`main.go`, lines 122-141) -/

/-- The calls that the handler makes on its `http.ResponseWriter`:
`http.Error(w, error, code)`, `w.WriteHeader(code)` and `fmt.Fprintln(w, text)`. -/
inductive WriterCall where
  | Error (error : String) (code : Int)
  | WriteHeader (code : Int)
  | Fprintln (text : String)
deriving DecidableEq

/-- What a run of `webhookHandler` leaves: its calls on the response writer, the
messages it handed to `sendToDiscord`, the `http.Post` calls made on its behalf
and the lines it logged, each in order. -/
structure HandlerResult where
  writer : List WriterCall
  sent : List String
  posts : List PostCall
  log : List String
deriving DecidableEq

/-- Handle GitLab Webhook. `decoded` is what `json.NewDecoder(r.Body).Decode(&payload)`
gives: an error, or the decoded payload. -/
def webhookHandler (discordWebhookURL : String)
    (jsonMarshal : DiscordMessage → Except String String)
    (httpPost : String → String → String → Except String Response)
    (decoded : Except String GitLabWebhookPayload) : HandlerResult :=
  match decoded with
  | .error _ =>
    { writer := [WriterCall.Error "Bad Request" StatusBadRequest],
      sent := [], posts := [], log := [] }
  | .ok payload =>
    let message := formatGitLabWebhookToDiscord payload
    let sending := sendToDiscord discordWebhookURL jsonMarshal httpPost message
    match sending.err with
    | some err =>
      { writer := [WriterCall.Error "Internal Server Error" StatusInternalServerError],
        sent := [message], posts := sending.posts,
        log := ["Error sending to Discord: " ++ err] }
    | none =>
      { writer := [WriterCall.WriteHeader StatusOK,
                   WriterCall.Fprintln "Webhook processed successfully"],
        sent := [message], posts := sending.posts, log := [] }

/-- The status code of the response that a sequence of writer calls produces:
the code of the first `http.Error` or `WriteHeader`; `http.StatusOK` when the
first call is a write, or when there is no call. -/
def responseStatus : List WriterCall → Int
  | [] => StatusOK
  | WriterCall.Error _ code :: _ => code
  | WriterCall.WriteHeader code :: _ => code
  | WriterCall.Fprintln _ :: _ => StatusOK

/-! ## Vocabulary of the statements -/

/-- The text `sub` occurs somewhere in `s`. -/
def Contains (s sub : String) : Prop :=
  sub.data <:+: s.data

instance (s sub : String) : Decidable (Contains s sub) := by
  unfold Contains; infer_instance

/-- The block of one commit of a branch push: the commit's ID line, the author
line with the avatar reference `avatar`, the commit URL line and the message
between code fences. -/
def commitBlock (avatar : String) (commit : Commit) : String :=
  "â€¢ **Commit ID**: " ++ commit.ID ++ "\n"
    ++ "  _by " ++ commit.Author.Name ++ "_ ![avatar](" ++ avatar ++ ")\n"
    ++ "  [Commit URL](" ++ commit.URL ++ ")\n"
    ++ "  ```\n" ++ commit.Message ++ "\n```"

/-- Concatenation of a list of strings, in order. -/
def concatAll : List String → String
  | [] => ""
  | s :: rest => s ++ concatAll rest

/-- Positions of the occurrences of the pattern `p` in `s`, the first character
of `s` being at position `i`: the `j` such that `p` is a prefix of what `s`
holds from position `j` on. -/
def occsFrom (p : List Char) : Nat → List Char → List Nat
  | _, [] => []
  | i, c :: t =>
    if p.isPrefixOf (c :: t) then i :: occsFrom p (i + 1) t else occsFrom p (i + 1) t

/-- The positions (counted in characters from 0, in increasing order) at which
`sub` occurs in `s`. -/
def Occurrences (s sub : String) : List Nat :=
  occsFrom sub.data 0 s.data

/-- Number of occurrences of the pattern `p` in `s`. -/
def countOcc (p : List Char) : List Char → Nat
  | [] => 0
  | c :: t => (if p.isPrefixOf (c :: t) then 1 else 0) + countOcc p t

/-- None of the values that a branch push prints contains `marker`: the user
name, the ref, the project's name and web URL, the user avatar, the after SHA,
and the id, author name, URL and message of every commit. -/
def FieldsAvoid (payload : GitLabWebhookPayload) (marker : String) : Prop :=
  ¬ Contains payload.UserName marker
  ∧ ¬ Contains payload.Ref marker
  ∧ ¬ Contains payload.Project.Name marker
  ∧ ¬ Contains payload.UserAvatar marker
  ∧ ¬ Contains payload.Project.WebURL marker
  ∧ ¬ Contains payload.After marker
  ∧ ∀ c ∈ payload.Commits,
      ¬ Contains c.ID marker ∧ ¬ Contains c.Author.Name marker
      ∧ ¬ Contains c.URL marker ∧ ¬ Contains c.Message marker

instance (payload : GitLabWebhookPayload) (marker : String) :
    Decidable (FieldsAvoid payload marker) := by
  unfold FieldsAvoid; infer_instance

/-- The Go zero value of `GitLabWebhookPayload`: what decoding `{}` gives. -/
def zeroPayload : GitLabWebhookPayload :=
  { ObjectKind := "", UserName := "", UserAvatar := "",
    Project := { Name := "", WebURL := "" },
    Commits := [], After := "", Ref := "",
    Repository := { Name := "", URL := "" },
    MergeRequest := { Title := "", State := "", Author := { Name := "", AvatarURL := "" },
                      URL := "" } }

/-- The payload of the example: what decoding
`{"object_kind":"merge_request","merge_request":{"title":"Fix bug","state":"opened","url":"https://x/mr/1"},"project":{"name":"P"}}`
gives (the fields that the body leaves out keep their zero value). -/
def exampleMergeRequest : GitLabWebhookPayload :=
  { zeroPayload with
    ObjectKind := "merge_request",
    Project := { Name := "P", WebURL := "" },
    MergeRequest := { Title := "Fix bug", State := "opened", URL := "https://x/mr/1",
                      Author := { Name := "", AvatarURL := "" } } }

/-- A push of two commits to the branch ref `refs/heads/main`. -/
def examplePush : GitLabWebhookPayload :=
  { zeroPayload with
    ObjectKind := "push", Ref := "refs/heads/main", UserName := "ann", UserAvatar := "A",
    After := "f00", Project := { Name := "P", WebURL := "https://x/p" },
    Commits := [
      { ID := "c1", Message := "one", Author := { Name := "bob", AvatarURL := "B" },
        URL := "u1" },
      { ID := "c2", Message := "two", Author := { Name := "cy", AvatarURL := "C" },
        URL := "u2" }] }

/-- The payload with every per-commit author avatar and the merge request
author's avatar blanked, all other fields kept. -/
def eraseAuthorAvatars (payload : GitLabWebhookPayload) : GitLabWebhookPayload :=
  { payload with
    Commits := payload.Commits.map
      (fun c => { c with Author := { c.Author with AvatarURL := "" } }),
    MergeRequest := { payload.MergeRequest with
      Author := { payload.MergeRequest.Author with AvatarURL := "" } } }

/-! ## Helper lemmas -/

theorem foldl_writeCommit (avatar : String) (commits : List Commit) (message : String) :
    commits.foldl (writeCommit avatar) message
      = message ++ concatAll (commits.map (commitBlock avatar)) := by
  induction commits generalizing message with
  | nil => simp [concatAll]
  | cons c cs ih =>
    simp only [List.foldl_cons, List.map_cons, concatAll, ih]
    apply String.ext
    simp [writeCommit, commitBlock]

theorem hasPrefix_append (pre t : String) : HasPrefix (pre ++ t) pre = true := by
  simp [HasPrefix]

theorem trimPrefix_append (pre t : String) : TrimPrefix (pre ++ t) pre = t := by
  simp [TrimPrefix, hasPrefix_append]

theorem format_push_branch (payload : GitLabWebhookPayload)
    (hk : payload.ObjectKind = "push") (hr : HasPrefix payload.Ref "refs/tags/" = false) :
    formatGitLabWebhookToDiscord payload
      = "**" ++ payload.UserName ++ "** pushed to branch **" ++ payload.Ref ++ "** in **"
          ++ payload.Project.Name ++ "**:\n\n"
        ++ concatAll (payload.Commits.map (commitBlock payload.UserAvatar))
        ++ "ðŸ”— **View changes**: <" ++ payload.Project.WebURL ++ "/commits/" ++ payload.After
        ++ ">\n" := by
  simp only [formatGitLabWebhookToDiscord, hk, hr, if_true, foldl_writeCommit]
  apply String.ext
  simp

theorem format_push_tag (payload : GitLabWebhookPayload) (t : String)
    (hk : payload.ObjectKind = "push") (hr : payload.Ref = "refs/tags/" ++ t) :
    formatGitLabWebhookToDiscord payload
      = "**" ++ payload.UserName ++ "** pushed a new tag **" ++ t ++ "** in **"
          ++ payload.Project.Name ++ "**:\n\n"
        ++ "ðŸ”— **View tag**: <" ++ payload.Project.WebURL ++ "/tags/" ++ t ++ ">\n" := by
  simp only [formatGitLabWebhookToDiscord, hk, hr, if_true, hasPrefix_append, trimPrefix_append]
  apply String.ext
  simp

theorem format_merge_request (payload : GitLabWebhookPayload)
    (hk : payload.ObjectKind = "merge_request") :
    formatGitLabWebhookToDiscord payload
      = "**Merge Request**: **" ++ payload.MergeRequest.Title ++ "** in **"
          ++ payload.Project.Name ++ "**\n"
        ++ "State: **" ++ payload.MergeRequest.State ++ "**\n"
        ++ "Author: _" ++ payload.MergeRequest.Author.Name ++ "_ ![avatar]("
          ++ payload.UserAvatar ++ ")\n"
        ++ "ðŸ”— **View Merge Request**: <" ++ payload.MergeRequest.URL ++ ">\n" := by
  have h : payload.ObjectKind ≠ "push" := by rw [hk]; decide
  simp only [formatGitLabWebhookToDiscord, hk, h, if_true, if_false]
  apply String.ext
  simp

theorem isPrefixOf_append_cons (p a b : List Char) (c : Char) (hc : c ∉ p) :
    p.isPrefixOf (a ++ c :: b) = p.isPrefixOf a := by
  induction p generalizing a with
  | nil => simp
  | cons x p ih =>
    have hx : x ≠ c := fun h => hc (by simp [h])
    have hp : c ∉ p := fun h => hc (by simp [h])
    cases a with
    | nil => simp [List.isPrefixOf, hx]
    | cons y a => simp [List.isPrefixOf, ih a hp]

theorem length_occsFrom (p : List Char) (i : Nat) (s : List Char) :
    (occsFrom p i s).length = countOcc p s := by
  induction s generalizing i with
  | nil => rfl
  | cons c t ih =>
    simp only [occsFrom, countOcc]
    split <;> simp [ih, Nat.add_comm]

theorem mem_occsFrom_bounds (p : List Char) (i : Nat) (s : List Char) (j : Nat)
    (h : j ∈ occsFrom p i s) : i ≤ j ∧ j < i + s.length := by
  induction s generalizing i with
  | nil => simp [occsFrom] at h
  | cons c t ih =>
    simp only [occsFrom] at h
    split at h
    · rcases List.mem_cons.1 h with h | h
      · subst h; simp
      · have := ih _ h; simp only [List.length_cons]; omega
    · have := ih _ h; simp only [List.length_cons]; omega

theorem occsFrom_cons (p : List Char) (i : Nat) (c : Char) (t : List Char) :
    occsFrom p i (c :: t)
      = if p.isPrefixOf (c :: t) then i :: occsFrom p (i + 1) t else occsFrom p (i + 1) t := rfl

theorem countOcc_cons (p : List Char) (c : Char) (t : List Char) :
    countOcc p (c :: t) = (if p.isPrefixOf (c :: t) then 1 else 0) + countOcc p t := rfl

theorem occsFrom_append_cons (p a b : List Char) (c : Char) (i : Nat) (hc : c ∉ p) (hp : p ≠ []) :
    occsFrom p i (a ++ c :: b) = occsFrom p i a ++ occsFrom p (i + a.length + 1) b := by
  induction a generalizing i with
  | nil =>
    cases p with
    | nil => exact absurd rfl hp
    | cons x p =>
      have hx : x ≠ c := fun h => hc (by simp [h])
      simp [occsFrom, List.isPrefixOf, hx]
  | cons y a ih =>
    have h1 : p.isPrefixOf (y :: (a ++ c :: b)) = p.isPrefixOf (y :: a) :=
      isPrefixOf_append_cons p (y :: a) b c hc
    have e : i + 1 + a.length + 1 = i + (a.length + 1) + 1 := by omega
    rw [List.cons_append, occsFrom_cons, occsFrom_cons, h1, ih (i + 1), List.length_cons, e]
    split <;> simp

theorem countOcc_append_cons (p a b : List Char) (c : Char) (hc : c ∉ p) (hp : p ≠ []) :
    countOcc p (a ++ c :: b) = countOcc p a + countOcc p b := by
  rw [← length_occsFrom p 0, ← length_occsFrom p 0 a, ← length_occsFrom p (0 + a.length + 1) b,
    occsFrom_append_cons p a b c 0 hc hp, List.length_append]

theorem countOcc_eq_zero_iff (p s : List Char) (hp : p ≠ []) :
    countOcc p s = 0 ↔ ¬ p <:+: s := by
  induction s with
  | nil => simp [countOcc, hp]
  | cons c t ih =>
    rw [countOcc_cons, List.infix_cons_iff, Nat.add_eq_zero_iff, ih, not_or,
      ← List.isPrefixOf_iff_prefix]
    by_cases h : p.isPrefixOf (c :: t) = true <;> simp [h]

theorem occurrences_length (s sub : String) :
    (Occurrences s sub).length = countOcc sub.data s.data :=
  length_occsFrom sub.data 0 s.data

theorem not_contains_iff (s sub : String) (h : sub ≠ "") :
    ¬ Contains s sub ↔ countOcc sub.data s.data = 0 := by
  have hp : sub.data ≠ [] := fun e => h (String.ext e)
  rw [countOcc_eq_zero_iff _ _ hp]
  rfl

theorem contains_refl (s : String) : Contains s s :=
  List.infix_refl _

theorem contains_append_left {a sub : String} (b : String) (h : Contains a sub) :
    Contains (a ++ b) sub := by
  unfold Contains at *
  rw [String.data_append]
  exact List.IsInfix.trans h (List.prefix_append _ _).isInfix

theorem contains_append_right {b sub : String} (a : String) (h : Contains b sub) :
    Contains (a ++ b) sub := by
  unfold Contains at *
  rw [String.data_append]
  exact List.IsInfix.trans h (List.suffix_append _ _).isInfix

theorem format_eraseAuthorAvatars (payload : GitLabWebhookPayload) :
    formatGitLabWebhookToDiscord (eraseAuthorAvatars payload)
      = formatGitLabWebhookToDiscord payload := by
  have hc : ∀ (av : String) (cs : List Commit),
      concatAll ((cs.map (fun c => { c with Author := { c.Author with AvatarURL := "" } })).map
        (commitBlock av)) = concatAll (cs.map (commitBlock av)) := by
    intro av cs
    rw [List.map_map]
    rfl
  simp only [formatGitLabWebhookToDiscord, eraseAuthorAvatars, foldl_writeCommit, hc]

theorem eq_append_trimPrefix (s pre : String) (h : HasPrefix s pre = true) :
    s = pre ++ TrimPrefix s pre := by
  have hp : pre.data <+: s.data := List.isPrefixOf_iff_prefix.1 h
  obtain ⟨t, ht⟩ := hp
  apply String.ext
  simp [TrimPrefix, h, ← ht]

theorem occsFrom_eq_nil (p : List Char) (i : Nat) (s : List Char) (h : countOcc p s = 0) :
    occsFrom p i s = [] :=
  List.length_eq_zero.1 (by rw [length_occsFrom]; exact h)

theorem contains_iff (s sub : String) (h : sub ≠ "") :
    Contains s sub ↔ countOcc sub.data s.data ≠ 0 := by
  rw [Ne, ← not_contains_iff s sub h, not_not]

theorem countOcc_tag_message (U t P W : String) :
    countOcc " pushed to branch ".data
      ("**" ++ U ++ "** pushed a new tag **" ++ t ++ "** in **" ++ P ++ "**:\n\n"
        ++ "ðŸ”— **View tag**: <" ++ W ++ "/tags/" ++ t ++ ">\n").data
    = countOcc " pushed to branch ".data U.data + countOcc " pushed to branch ".data t.data
      + countOcc " pushed to branch ".data P.data + countOcc " pushed to branch ".data W.data
      + countOcc " pushed to branch ".data t.data := by
  simp [countOcc_cons, countOcc_append_cons, countOcc]
  omega

theorem countOcc_commitBlock_commitID (av : String) (c : Commit) (rest : List Char)
    (h1 : countOcc "Commit ID".data c.ID.data = 0)
    (h2 : countOcc "Commit ID".data c.Author.Name.data = 0)
    (h3 : countOcc "Commit ID".data av.data = 0)
    (h4 : countOcc "Commit ID".data c.URL.data = 0)
    (h5 : countOcc "Commit ID".data c.Message.data = 0) :
    countOcc "Commit ID".data ((commitBlock av c).data ++ rest)
      = 1 + countOcc "Commit ID".data rest := by
  simp [commitBlock, countOcc_cons, countOcc_append_cons, h1, h2, h3, h4, h5]

theorem countOcc_commitBlock_viewChanges (av : String) (c : Commit) (rest : List Char)
    (h1 : countOcc "View changes".data c.ID.data = 0)
    (h2 : countOcc "View changes".data c.Author.Name.data = 0)
    (h3 : countOcc "View changes".data av.data = 0)
    (h4 : countOcc "View changes".data c.URL.data = 0)
    (h5 : countOcc "View changes".data c.Message.data = 0) :
    countOcc "View changes".data ((commitBlock av c).data ++ rest)
      = countOcc "View changes".data rest := by
  simp [commitBlock, countOcc_cons, countOcc_append_cons, h1, h2, h3, h4, h5]

theorem countOcc_blocks_commitID (av : String) (cs : List Commit) (rest : List Char)
    (h3 : countOcc "Commit ID".data av.data = 0)
    (hcs : ∀ c ∈ cs, countOcc "Commit ID".data c.ID.data = 0
      ∧ countOcc "Commit ID".data c.Author.Name.data = 0
      ∧ countOcc "Commit ID".data c.URL.data = 0
      ∧ countOcc "Commit ID".data c.Message.data = 0) :
    countOcc "Commit ID".data ((concatAll (cs.map (commitBlock av))).data ++ rest)
      = cs.length + countOcc "Commit ID".data rest := by
  induction cs with
  | nil => simp [concatAll]
  | cons c cs ih =>
    obtain ⟨h1, h2, h4, h5⟩ := hcs c (List.mem_cons_self _ _)
    have ih2 := ih (fun d hd => hcs d (List.mem_cons_of_mem _ hd))
    rw [List.map_cons, concatAll, String.data_append, List.append_assoc,
      countOcc_commitBlock_commitID av c _ h1 h2 h3 h4 h5, ih2, List.length_cons]
    omega

theorem countOcc_blocks_viewChanges (av : String) (cs : List Commit) (rest : List Char)
    (h3 : countOcc "View changes".data av.data = 0)
    (hcs : ∀ c ∈ cs, countOcc "View changes".data c.ID.data = 0
      ∧ countOcc "View changes".data c.Author.Name.data = 0
      ∧ countOcc "View changes".data c.URL.data = 0
      ∧ countOcc "View changes".data c.Message.data = 0) :
    countOcc "View changes".data ((concatAll (cs.map (commitBlock av))).data ++ rest)
      = countOcc "View changes".data rest := by
  induction cs with
  | nil => simp [concatAll]
  | cons c cs ih =>
    obtain ⟨h1, h2, h4, h5⟩ := hcs c (List.mem_cons_self _ _)
    have ih2 := ih (fun d hd => hcs d (List.mem_cons_of_mem _ hd))
    rw [List.map_cons, concatAll, String.data_append, List.append_assoc,
      countOcc_commitBlock_viewChanges av c _ h1 h2 h3 h4 h5, ih2]

/-! ## Claims -/

/-- C1: every payload whose `ObjectKind` is none of "push", "merge_request",
"repository_update" is formatted as exactly "Unhandled event type", whatever
its other fields hold; the kinds "", "note", "pipeline", "tag_push" and "Push"
are among them. -/
theorem C1_unhandled_kind :
    (∀ payload : GitLabWebhookPayload,
      payload.ObjectKind ≠ "push" → payload.ObjectKind ≠ "merge_request" →
      payload.ObjectKind ≠ "repository_update" →
      formatGitLabWebhookToDiscord payload = "Unhandled event type")
    ∧ (∀ payload : GitLabWebhookPayload,
      payload.ObjectKind ∈ ["", "note", "pipeline", "tag_push", "Push"] →
      formatGitLabWebhookToDiscord payload = "Unhandled event type") := by
  have key : ∀ payload : GitLabWebhookPayload,
      payload.ObjectKind ≠ "push" → payload.ObjectKind ≠ "merge_request" →
      payload.ObjectKind ≠ "repository_update" →
      formatGitLabWebhookToDiscord payload = "Unhandled event type" := by
    intro payload h1 h2 h3
    simp [formatGitLabWebhookToDiscord, h1, h2, h3]
  refine ⟨key, ?_⟩
  intro payload hmem
  simp only [List.mem_cons, List.mem_singleton, List.not_mem_nil, or_false] at hmem
  rcases hmem with h | h | h | h | h <;>
    exact key payload (by rw [h]; decide) (by rw [h]; decide) (by rw [h]; decide)

/-- Witness of C1: a "note" event carrying a ref, an actor and a project. -/
theorem C1_unhandled_kind_witness :
    ("note" ≠ "push" ∧ "note" ≠ "merge_request" ∧ "note" ≠ "repository_update")
    ∧ formatGitLabWebhookToDiscord
        { zeroPayload with ObjectKind := "note", Ref := "refs/tags/v1", UserName := "ann",
                           Project := { Name := "P", WebURL := "https://x/p" } }
      = "Unhandled event type" :=
  ⟨by decide, C1_unhandled_kind.1 _ (by decide) (by decide) (by decide)⟩

/-- C2: a "push" payload whose `Ref` does not start with "refs/tags/" is
formatted as exactly the branch header (user name, raw `Ref`, project name),
then one block per commit in input order (ID line, author line with an avatar
reference, commit URL line, the message verbatim between the code fences), then
one "View changes" link line to `<Project.WebURL/commits/After>`. -/
theorem C2_branch_push_format (payload : GitLabWebhookPayload)
    (hk : payload.ObjectKind = "push") (hr : HasPrefix payload.Ref "refs/tags/" = false) :
    formatGitLabWebhookToDiscord payload
      = "**" ++ payload.UserName ++ "** pushed to branch **" ++ payload.Ref ++ "** in **"
          ++ payload.Project.Name ++ "**:\n\n"
        ++ concatAll (payload.Commits.map (fun commit =>
            "â€¢ **Commit ID**: " ++ commit.ID ++ "\n"
            ++ "  _by " ++ commit.Author.Name ++ "_ ![avatar](" ++ payload.UserAvatar ++ ")\n"
            ++ "  [Commit URL](" ++ commit.URL ++ ")\n"
            ++ "  ```\n" ++ commit.Message ++ "\n```"))
        ++ "ðŸ”— **View changes**: "
        ++ ("<" ++ payload.Project.WebURL ++ "/commits/" ++ payload.After ++ ">") ++ "\n" := by
  rw [format_push_branch payload hk hr]
  have e : commitBlock payload.UserAvatar = fun commit =>
      "â€¢ **Commit ID**: " ++ commit.ID ++ "\n"
      ++ "  _by " ++ commit.Author.Name ++ "_ ![avatar](" ++ payload.UserAvatar ++ ")\n"
      ++ "  [Commit URL](" ++ commit.URL ++ ")\n"
      ++ "  ```\n" ++ commit.Message ++ "\n```" := rfl
  rw [e]
  apply String.ext
  simp

/-- Witness of C2: a push of two commits to `refs/heads/main`, one message
holding markdown. -/
theorem C2_branch_push_format_witness :
    ("push" = "push" ∧ HasPrefix "refs/heads/main" "refs/tags/" = false)
    ∧ formatGitLabWebhookToDiscord
        { zeroPayload with
          ObjectKind := "push", Ref := "refs/heads/main", UserName := "ann", UserAvatar := "A",
          After := "f00", Project := { Name := "P", WebURL := "https://x/p" },
          Commits := [
            { ID := "c1", Message := "**fix** `x`", Author := { Name := "bob", AvatarURL := "B" },
              URL := "u1" },
            { ID := "c2", Message := "two", Author := { Name := "cy", AvatarURL := "C" },
              URL := "u2" }] }
      = "**ann** pushed to branch **refs/heads/main** in **P**:\n\n"
        ++ "â€¢ **Commit ID**: c1\n  _by bob_ ![avatar](A)\n  [Commit URL](u1)\n  ```\n**fix** `x`\n```"
        ++ "â€¢ **Commit ID**: c2\n  _by cy_ ![avatar](A)\n  [Commit URL](u2)\n  ```\ntwo\n```"
        ++ "ðŸ”— **View changes**: <https://x/p/commits/f00>\n" :=
  ⟨by decide, (C2_branch_push_format _ (by decide) (by decide)).trans (by decide)⟩

/-- C3: a "push" payload whose `Ref` is "refs/tags/" followed by `t` is formatted
as exactly the tag header naming the user, `t` and the project, then one
"View tag" link line to `<Project.WebURL/tags/t>`; the prefix is removed once
(whatever `t` is), and `Commits`, `After` and `UserAvatar` play no part. -/
theorem C3_tag_push_format (payload : GitLabWebhookPayload) (t : String)
    (hk : payload.ObjectKind = "push") (hr : payload.Ref = "refs/tags/" ++ t) :
    formatGitLabWebhookToDiscord payload
      = "**" ++ payload.UserName ++ "** pushed a new tag **" ++ t ++ "** in **"
          ++ payload.Project.Name ++ "**:\n\n"
        ++ "ðŸ”— **View tag**: " ++ ("<" ++ payload.Project.WebURL ++ "/tags/" ++ t ++ ">") ++ "\n"
    ∧ ∀ (commits : List Commit) (after userAvatar : String),
        formatGitLabWebhookToDiscord
          { payload with Commits := commits, After := after, UserAvatar := userAvatar }
        = formatGitLabWebhookToDiscord payload := by
  refine ⟨?_, ?_⟩
  · rw [format_push_tag payload t hk hr]
    apply String.ext
    simp
  · intro commits after userAvatar
    exact (format_push_tag
      { payload with Commits := commits, After := after, UserAvatar := userAvatar } t hk hr).trans
      (format_push_tag payload t hk hr).symm

/-- Witness of C3: the tag name itself starts with "refs/tags/"; only the first
prefix is removed. -/
theorem C3_tag_push_format_witness :
    ("push" = "push" ∧ "refs/tags/refs/tags/v1" = "refs/tags/" ++ "refs/tags/v1")
    ∧ formatGitLabWebhookToDiscord
        { zeroPayload with
          ObjectKind := "push", Ref := "refs/tags/refs/tags/v1", UserName := "ann",
          Project := { Name := "P", WebURL := "https://x/p" } }
      = "**ann** pushed a new tag **refs/tags/v1** in **P**:\n\n"
        ++ "ðŸ”— **View tag**: <https://x/p/tags/refs/tags/v1>\n" :=
  ⟨by decide,
    ((C3_tag_push_format _ "refs/tags/v1" (by decide) (by decide)).1).trans (by decide)⟩

/-- C4, as stated, fails: in a tag push by the user named "a pushed to branch b"
the substring " pushed to branch " occurs in the output. -/
theorem C4_counterexample :
    ({ zeroPayload with ObjectKind := "push", Ref := "refs/tags/v1",
                        UserName := "a pushed to branch b" } : GitLabWebhookPayload).ObjectKind
      = "push"
    ∧ HasPrefix "refs/tags/v1" "refs/tags/" = true
    ∧ formatGitLabWebhookToDiscord
        { zeroPayload with ObjectKind := "push", Ref := "refs/tags/v1",
                           UserName := "a pushed to branch b" }
      = "**a pushed to branch b** pushed a new tag **v1** in ****:\n\n"
        ++ "ðŸ”— **View tag**: </tags/v1>\n"
    ∧ Contains
        (formatGitLabWebhookToDiscord
          { zeroPayload with ObjectKind := "push", Ref := "refs/tags/v1",
                             UserName := "a pushed to branch b" })
        " pushed to branch " := by
  decide

/-- C4, amended: for a "push" payload whose `Ref` begins with "refs/tags/", the
output contains the tag name (`Ref` without that prefix), and the substring
" pushed to branch " occurs in the output exactly when it occurs in one of the
inserted values `UserName`, the tag name, `Project.Name` or `Project.WebURL`; it
never comes from the template itself. -/
theorem C4_tag_push (payload : GitLabWebhookPayload)
    (hk : payload.ObjectKind = "push") (hr : HasPrefix payload.Ref "refs/tags/" = true) :
    Contains (formatGitLabWebhookToDiscord payload) (TrimPrefix payload.Ref "refs/tags/")
    ∧ (Contains (formatGitLabWebhookToDiscord payload) " pushed to branch "
        ↔ Contains payload.UserName " pushed to branch "
          ∨ Contains (TrimPrefix payload.Ref "refs/tags/") " pushed to branch "
          ∨ Contains payload.Project.Name " pushed to branch "
          ∨ Contains payload.Project.WebURL " pushed to branch ") := by
  have e := format_push_tag payload (TrimPrefix payload.Ref "refs/tags/") hk
    (eq_append_trimPrefix payload.Ref "refs/tags/" hr)
  have hne : " pushed to branch " ≠ "" := by decide
  refine ⟨?_, ?_⟩
  · rw [e]
    repeat (first | exact contains_append_right _ (contains_refl _) | apply contains_append_left)
  · rw [contains_iff _ _ hne, contains_iff _ _ hne, contains_iff _ _ hne, contains_iff _ _ hne,
      contains_iff _ _ hne, e, countOcc_tag_message]
    omega

/-- Witness of C4: a tag push of "v1" whose inserted values are free of
" pushed to branch ". -/
theorem C4_tag_push_witness :
    ("push" = "push" ∧ HasPrefix "refs/tags/v1" "refs/tags/" = true)
    ∧ Contains
        (formatGitLabWebhookToDiscord
          { zeroPayload with ObjectKind := "push", Ref := "refs/tags/v1", UserName := "ann",
                             Project := { Name := "P", WebURL := "https://x/p" } })
        "v1"
    ∧ ¬ Contains
        (formatGitLabWebhookToDiscord
          { zeroPayload with ObjectKind := "push", Ref := "refs/tags/v1", UserName := "ann",
                             Project := { Name := "P", WebURL := "https://x/p" } })
        " pushed to branch " :=
  ⟨by decide,
    (C4_tag_push
      { zeroPayload with ObjectKind := "push", Ref := "refs/tags/v1", UserName := "ann",
                         Project := { Name := "P", WebURL := "https://x/p" } }
      (by decide) (by decide)).1,
    fun h => absurd
      ((C4_tag_push
        { zeroPayload with ObjectKind := "push", Ref := "refs/tags/v1", UserName := "ann",
                           Project := { Name := "P", WebURL := "https://x/p" } }
        (by decide) (by decide)).2.1 h)
      (by decide)⟩

/-- C5, as stated, fails: a branch push of one commit whose message is
"Commit ID" has two occurrences of "Commit ID" in its output, not one. -/
theorem C5_counterexample :
    ({ zeroPayload with
        ObjectKind := "push", Ref := "main",
        Commits := [{ ID := "c1", Message := "Commit ID", URL := "u",
                      Author := { Name := "bob", AvatarURL := "" } }] }
      : GitLabWebhookPayload).Commits.length = 1
    ∧ HasPrefix "main" "refs/tags/" = false
    ∧ formatGitLabWebhookToDiscord
        { zeroPayload with
          ObjectKind := "push", Ref := "main",
          Commits := [{ ID := "c1", Message := "Commit ID", URL := "u",
                        Author := { Name := "bob", AvatarURL := "" } }] }
      = "**** pushed to branch **main** in ****:\n\n"
        ++ "â€¢ **Commit ID**: c1\n  _by bob_ ![avatar]()\n  [Commit URL](u)\n  ```\nCommit ID\n```"
        ++ "ðŸ”— **View changes**: </commits/>\n"
    ∧ (Occurrences
        (formatGitLabWebhookToDiscord
          { zeroPayload with
            ObjectKind := "push", Ref := "main",
            Commits := [{ ID := "c1", Message := "Commit ID", URL := "u",
                          Author := { Name := "bob", AvatarURL := "" } }] })
        "Commit ID").length = 2 := by
  decide

/-- C5, amended: for a "push" payload whose `Ref` does not start with
"refs/tags/" and none of whose printed values (user name, ref, project name and
web URL, user avatar, after, and each commit's id, author name, URL and message)
contains "Commit ID" or "View changes", the output has exactly as many
occurrences of "Commit ID" as there are commits, exactly one occurrence of
"View changes", and that one comes after every occurrence of "Commit ID". -/
theorem C5_commit_markers (payload : GitLabWebhookPayload)
    (hk : payload.ObjectKind = "push") (hr : HasPrefix payload.Ref "refs/tags/" = false)
    (hCI : FieldsAvoid payload "Commit ID") (hVC : FieldsAvoid payload "View changes") :
    (Occurrences (formatGitLabWebhookToDiscord payload) "Commit ID").length
      = payload.Commits.length
    ∧ (Occurrences (formatGitLabWebhookToDiscord payload) "View changes").length = 1
    ∧ ∀ i ∈ Occurrences (formatGitLabWebhookToDiscord payload) "Commit ID",
        ∀ j ∈ Occurrences (formatGitLabWebhookToDiscord payload) "View changes", i < j := by
  have n1 : "Commit ID" ≠ "" := by decide
  have n2 : "View changes" ≠ "" := by decide
  obtain ⟨cU, cR, cP, cAv, cW, cA, cC⟩ := hCI
  obtain ⟨vU, vR, vP, vAv, vW, vA, vC⟩ := hVC
  rw [not_contains_iff _ _ n1] at cU cR cP cAv cW cA
  rw [not_contains_iff _ _ n2] at vU vR vP vAv vW vA
  have cC2 : ∀ c ∈ payload.Commits, countOcc "Commit ID".data c.ID.data = 0
      ∧ countOcc "Commit ID".data c.Author.Name.data = 0
      ∧ countOcc "Commit ID".data c.URL.data = 0
      ∧ countOcc "Commit ID".data c.Message.data = 0 := by
    intro c hc
    obtain ⟨h1, h2, h3, h4⟩ := cC c hc
    rw [not_contains_iff _ _ n1] at h1 h2 h3 h4
    exact ⟨h1, h2, h3, h4⟩
  have vC2 : ∀ c ∈ payload.Commits, countOcc "View changes".data c.ID.data = 0
      ∧ countOcc "View changes".data c.Author.Name.data = 0
      ∧ countOcc "View changes".data c.URL.data = 0
      ∧ countOcc "View changes".data c.Message.data = 0 := by
    intro c hc
    obtain ⟨h1, h2, h3, h4⟩ := vC c hc
    rw [not_contains_iff _ _ n2] at h1 h2 h3 h4
    exact ⟨h1, h2, h3, h4⟩
  have bCI := countOcc_blocks_commitID payload.UserAvatar payload.Commits [] cAv cC2
  have bVC := countOcc_blocks_viewChanges payload.UserAvatar payload.Commits [] vAv vC2
  rw [List.append_nil] at bCI bVC
  simp only [countOcc, Nat.add_zero] at bCI bVC
  -- the output splits at the first character of the closing link line
  obtain ⟨pre, post, hout, preCI, preVC, postCI, postVC⟩ :
      ∃ pre post : List Char,
        (formatGitLabWebhookToDiscord payload).data = pre ++ 'ð' :: post
        ∧ countOcc "Commit ID".data pre = payload.Commits.length
        ∧ countOcc "View changes".data pre = 0
        ∧ countOcc "Commit ID".data post = 0
        ∧ countOcc "View changes".data post = 1 := by
    refine ⟨("**" ++ payload.UserName ++ "** pushed to branch **" ++ payload.Ref ++ "** in **"
          ++ payload.Project.Name ++ "**:\n\n"
          ++ concatAll (payload.Commits.map (commitBlock payload.UserAvatar))).data,
      ("Ÿ”— **View changes**: <" ++ payload.Project.WebURL ++ "/commits/" ++ payload.After
          ++ ">\n").data, ?_, ?_, ?_, ?_, ?_⟩
    · rw [format_push_branch payload hk hr]
      simp
    · simp [countOcc_cons, countOcc_append_cons, cU, cR, cP, bCI]
    · simp [countOcc_cons, countOcc_append_cons, vU, vR, vP, bVC]
    · simp [countOcc_cons, countOcc_append_cons, cW, cA, countOcc]
    · simp [countOcc_cons, countOcc_append_cons, vW, vA, countOcc]
  have d1 : (Char.ofNat 0xf0) ∉ "Commit ID".data := by decide
  have d2 : (Char.ofNat 0xf0) ∉ "View changes".data := by decide
  have p1 : "Commit ID".data ≠ [] := by decide
  have p2 : "View changes".data ≠ [] := by decide
  have oCI : Occurrences (formatGitLabWebhookToDiscord payload) "Commit ID"
      = occsFrom "Commit ID".data 0 pre := by
    unfold Occurrences
    rw [hout, occsFrom_append_cons _ _ _ _ _ d1 p1, occsFrom_eq_nil _ _ _ postCI,
      List.append_nil]
  have oVC : Occurrences (formatGitLabWebhookToDiscord payload) "View changes"
      = occsFrom "View changes".data (0 + pre.length + 1) post := by
    unfold Occurrences
    rw [hout, occsFrom_append_cons _ _ _ _ _ d2 p2, occsFrom_eq_nil _ _ _ preVC,
      List.nil_append]
  refine ⟨?_, ?_, ?_⟩
  · rw [oCI, length_occsFrom, preCI]
  · rw [oVC, length_occsFrom, postVC]
  · intro i hi j hj
    rw [oCI] at hi
    rw [oVC] at hj
    have b1 := mem_occsFrom_bounds _ _ _ _ hi
    have b2 := mem_occsFrom_bounds _ _ _ _ hj
    omega

/-- Witness of C5: the push of two commits `examplePush`; its "Commit ID"
markers sit at positions 62 and 140, its "View changes" marker at 218. -/
theorem C5_commit_markers_witness :
    (examplePush.ObjectKind = "push" ∧ HasPrefix examplePush.Ref "refs/tags/" = false
      ∧ FieldsAvoid examplePush "Commit ID" ∧ FieldsAvoid examplePush "View changes")
    ∧ ((Occurrences (formatGitLabWebhookToDiscord examplePush) "Commit ID").length
        = examplePush.Commits.length
      ∧ (Occurrences (formatGitLabWebhookToDiscord examplePush) "View changes").length = 1
      ∧ ∀ i ∈ Occurrences (formatGitLabWebhookToDiscord examplePush) "Commit ID",
          ∀ j ∈ Occurrences (formatGitLabWebhookToDiscord examplePush) "View changes", i < j)
    ∧ Occurrences (formatGitLabWebhookToDiscord examplePush) "Commit ID" = [62, 140]
    ∧ Occurrences (formatGitLabWebhookToDiscord examplePush) "View changes" = [218] :=
  ⟨by decide,
    C5_commit_markers examplePush (by decide) (by decide) (by decide) (by decide),
    by decide, by decide⟩

/-- C6, as stated, fails: a "push" payload with no commits whose `Ref` is the
tag ref "refs/tags/v1" is formatted as the tag message, which does not contain
the branch header followed by the "View changes" line. -/
theorem C6_counterexample :
    ({ zeroPayload with ObjectKind := "push", Ref := "refs/tags/v1", UserName := "ann",
                        After := "f00", Project := { Name := "P", WebURL := "https://x/p" } }
        : GitLabWebhookPayload).Commits = []
    ∧ formatGitLabWebhookToDiscord
        { zeroPayload with ObjectKind := "push", Ref := "refs/tags/v1", UserName := "ann",
                           After := "f00", Project := { Name := "P", WebURL := "https://x/p" } }
      = "**ann** pushed a new tag **v1** in **P**:\n\nðŸ”— **View tag**: <https://x/p/tags/v1>\n"
    ∧ ¬ Contains
        (formatGitLabWebhookToDiscord
          { zeroPayload with ObjectKind := "push", Ref := "refs/tags/v1", UserName := "ann",
                             After := "f00", Project := { Name := "P", WebURL := "https://x/p" } })
        ("**ann** pushed to branch **refs/tags/v1** in **P**:\n\n"
          ++ "ðŸ”— **View changes**: <https://x/p/commits/f00>\n") := by
  decide

/-- C6, amended: a "push" payload with no commits whose `Ref` does not start
with "refs/tags/" is formatted as exactly the branch header immediately followed
by the "View changes" link line for `<Project.WebURL/commits/After>`; so the
output contains the two, with nothing between them. -/
theorem C6_empty_push (payload : GitLabWebhookPayload)
    (hk : payload.ObjectKind = "push") (hr : HasPrefix payload.Ref "refs/tags/" = false)
    (hc : payload.Commits = []) :
    formatGitLabWebhookToDiscord payload
      = ("**" ++ payload.UserName ++ "** pushed to branch **" ++ payload.Ref ++ "** in **"
          ++ payload.Project.Name ++ "**:\n\n")
        ++ ("ðŸ”— **View changes**: <" ++ payload.Project.WebURL ++ "/commits/" ++ payload.After
          ++ ">\n")
    ∧ Contains (formatGitLabWebhookToDiscord payload)
        (("**" ++ payload.UserName ++ "** pushed to branch **" ++ payload.Ref ++ "** in **"
          ++ payload.Project.Name ++ "**:\n\n")
        ++ ("ðŸ”— **View changes**: <" ++ payload.Project.WebURL ++ "/commits/" ++ payload.After
          ++ ">\n")) := by
  have e : formatGitLabWebhookToDiscord payload
      = ("**" ++ payload.UserName ++ "** pushed to branch **" ++ payload.Ref ++ "** in **"
          ++ payload.Project.Name ++ "**:\n\n")
        ++ ("ðŸ”— **View changes**: <" ++ payload.Project.WebURL ++ "/commits/" ++ payload.After
          ++ ">\n") := by
    rw [format_push_branch payload hk hr, hc]
    apply String.ext
    simp [concatAll]
  refine ⟨e, ?_⟩
  rw [e]
  exact contains_refl _

/-- Witness of C6: an empty push to `refs/heads/main`. -/
theorem C6_empty_push_witness :
    ("push" = "push" ∧ HasPrefix "refs/heads/main" "refs/tags/" = false
      ∧ ([] : List Commit) = [])
    ∧ formatGitLabWebhookToDiscord
        { zeroPayload with ObjectKind := "push", Ref := "refs/heads/main", UserName := "ann",
                           After := "f00", Project := { Name := "P", WebURL := "https://x/p" } }
      = "**ann** pushed to branch **refs/heads/main** in **P**:\n\n"
        ++ "ðŸ”— **View changes**: <https://x/p/commits/f00>\n" :=
  ⟨by decide, ((C6_empty_push _ (by decide) (by decide) (by decide)).1).trans (by decide)⟩

/-- C7: the message of a "merge_request" payload contains the merge request's
title, the project name, the state, the author's name and the merge request's
own URL between `<` and `>`; `Project.WebURL` plays no part in it. For the
payload of the example (title "Fix bug", state "opened", url "https://x/mr/1",
project name "P", everything else empty) it contains "Fix bug", "P", "opened"
and "https://x/mr/1". -/
theorem C7_merge_request :
    (∀ payload : GitLabWebhookPayload, payload.ObjectKind = "merge_request" →
      Contains (formatGitLabWebhookToDiscord payload) payload.MergeRequest.Title
      ∧ Contains (formatGitLabWebhookToDiscord payload) payload.Project.Name
      ∧ Contains (formatGitLabWebhookToDiscord payload) payload.MergeRequest.State
      ∧ Contains (formatGitLabWebhookToDiscord payload) payload.MergeRequest.Author.Name
      ∧ Contains (formatGitLabWebhookToDiscord payload) ("<" ++ payload.MergeRequest.URL ++ ">")
      ∧ ∀ webURL : String,
          formatGitLabWebhookToDiscord
            { payload with Project := { payload.Project with WebURL := webURL } }
          = formatGitLabWebhookToDiscord payload)
    ∧ (Contains (formatGitLabWebhookToDiscord exampleMergeRequest) "Fix bug"
      ∧ Contains (formatGitLabWebhookToDiscord exampleMergeRequest) "P"
      ∧ Contains (formatGitLabWebhookToDiscord exampleMergeRequest) "opened"
      ∧ Contains (formatGitLabWebhookToDiscord exampleMergeRequest) "https://x/mr/1") := by
  refine ⟨?_, by decide⟩
  intro payload hk
  have e := format_merge_request payload hk
  have eURL : formatGitLabWebhookToDiscord payload
      = "**Merge Request**: **" ++ payload.MergeRequest.Title ++ "** in **"
          ++ payload.Project.Name ++ "**\n"
        ++ "State: **" ++ payload.MergeRequest.State ++ "**\n"
        ++ "Author: _" ++ payload.MergeRequest.Author.Name ++ "_ ![avatar]("
          ++ payload.UserAvatar ++ ")\n" ++ "ðŸ”— **View Merge Request**: "
        ++ ("<" ++ payload.MergeRequest.URL ++ ">") ++ "\n" := by
    rw [e]
    apply String.ext
    simp
  refine ⟨?_, ?_, ?_, ?_, ?_, ?_⟩
  · rw [e]
    repeat (first | exact contains_append_right _ (contains_refl _) | apply contains_append_left)
  · rw [e]
    repeat (first | exact contains_append_right _ (contains_refl _) | apply contains_append_left)
  · rw [e]
    repeat (first | exact contains_append_right _ (contains_refl _) | apply contains_append_left)
  · rw [e]
    repeat (first | exact contains_append_right _ (contains_refl _) | apply contains_append_left)
  · rw [eURL]
    apply contains_append_left
    exact contains_append_right _ (contains_refl _)
  · intro webURL
    exact (format_merge_request
      { payload with Project := { payload.Project with WebURL := webURL } } hk).trans e.symm

/-- Witness of C7: the general statement at the payload of the example. -/
theorem C7_merge_request_witness :
    exampleMergeRequest.ObjectKind = "merge_request"
    ∧ Contains (formatGitLabWebhookToDiscord exampleMergeRequest) "<https://x/mr/1>"
    ∧ formatGitLabWebhookToDiscord exampleMergeRequest
      = "**Merge Request**: **Fix bug** in **P**\nState: **opened**\nAuthor: __ ![avatar]()\n"
        ++ "ðŸ”— **View Merge Request**: <https://x/mr/1>\n" :=
  ⟨by decide, (C7_merge_request.1 exampleMergeRequest (by decide)).2.2.2.2.1, by decide⟩

/-- C8: `webhookHandler` answers every request with one status. When decoding
fails it calls `http.Error` with "Bad Request" and 400, and neither
`sendToDiscord` nor `http.Post` is called. When decoding succeeds it calls
`sendToDiscord` once, with the formatted payload; it answers 500 (and logs the
error) when that call returns an error, and 200 with the line
"Webhook processed successfully" when it returns none. The status is 400 only
when decoding fails. -/
theorem C8_webhookHandler (url : String)
    (jsonMarshal : DiscordMessage → Except String String)
    (httpPost : String → String → String → Except String Response) :
    (∀ e : String,
      webhookHandler url jsonMarshal httpPost (.error e)
        = { writer := [WriterCall.Error "Bad Request" 400], sent := [], posts := [], log := [] }
      ∧ responseStatus (webhookHandler url jsonMarshal httpPost (.error e)).writer = 400)
    ∧ (∀ payload : GitLabWebhookPayload,
      (webhookHandler url jsonMarshal httpPost (.ok payload)).sent
        = [formatGitLabWebhookToDiscord payload]
      ∧ (webhookHandler url jsonMarshal httpPost (.ok payload)).posts
        = (sendToDiscord url jsonMarshal httpPost (formatGitLabWebhookToDiscord payload)).posts
      ∧ (∀ err,
          (sendToDiscord url jsonMarshal httpPost (formatGitLabWebhookToDiscord payload)).err
            = some err →
          (webhookHandler url jsonMarshal httpPost (.ok payload)).writer
            = [WriterCall.Error "Internal Server Error" 500]
          ∧ responseStatus (webhookHandler url jsonMarshal httpPost (.ok payload)).writer = 500
          ∧ (webhookHandler url jsonMarshal httpPost (.ok payload)).log
            = ["Error sending to Discord: " ++ err])
      ∧ ((sendToDiscord url jsonMarshal httpPost (formatGitLabWebhookToDiscord payload)).err
            = none →
          (webhookHandler url jsonMarshal httpPost (.ok payload)).writer
            = [WriterCall.WriteHeader 200, WriterCall.Fprintln "Webhook processed successfully"]
          ∧ responseStatus (webhookHandler url jsonMarshal httpPost (.ok payload)).writer = 200
          ∧ (webhookHandler url jsonMarshal httpPost (.ok payload)).log = []))
    ∧ (∀ decoded : Except String GitLabWebhookPayload,
      (responseStatus (webhookHandler url jsonMarshal httpPost decoded).writer = 400
        ∨ responseStatus (webhookHandler url jsonMarshal httpPost decoded).writer = 500
        ∨ responseStatus (webhookHandler url jsonMarshal httpPost decoded).writer = 200)
      ∧ (responseStatus (webhookHandler url jsonMarshal httpPost decoded).writer = 400
        ↔ ∃ e, decoded = .error e)) := by
  refine ⟨?_, ?_, ?_⟩
  · intro e
    exact ⟨rfl, rfl⟩
  · intro payload
    refine ⟨?_, ?_, ?_, ?_⟩
    · unfold webhookHandler
      simp only
      split <;> rfl
    · unfold webhookHandler
      simp only
      split <;> rfl
    · intro err h
      unfold webhookHandler
      simp [h, responseStatus, StatusInternalServerError]
    · intro h
      unfold webhookHandler
      simp [h, responseStatus, StatusOK]
  · intro decoded
    cases decoded with
    | error e =>
      refine ⟨Or.inl rfl, ?_⟩
      constructor
      · intro _
        exact ⟨e, rfl⟩
      · intro _
        rfl
    | ok payload =>
      unfold webhookHandler
      simp only
      cases hs : (sendToDiscord url jsonMarshal httpPost
          (formatGitLabWebhookToDiscord payload)).err with
      | none =>
        refine ⟨Or.inr (Or.inr rfl), ?_⟩
        constructor
        · intro h
          simp [responseStatus, StatusOK] at h
        · rintro ⟨e, he⟩
          cases he
      | some err =>
        refine ⟨Or.inr (Or.inl rfl), ?_⟩
        constructor
        · intro h
          simp [responseStatus, StatusInternalServerError] at h
        · rintro ⟨e, he⟩
          cases he

/-- Witness of C8: a decoded "note" event whose POST Discord refuses with 404 is
answered with 500, after one `sendToDiscord` call and one POST. -/
theorem C8_webhookHandler_witness :
    (sendToDiscord "https://discord/hook" (fun m => .ok m.Content)
        (fun _ _ _ => .ok { StatusCode := 404 })
        (formatGitLabWebhookToDiscord { zeroPayload with ObjectKind := "note" })).err
      = some "failed to send message to Discord, status code: 404"
    ∧ webhookHandler "https://discord/hook" (fun m => .ok m.Content)
        (fun _ _ _ => .ok { StatusCode := 404 })
        (.ok { zeroPayload with ObjectKind := "note" })
      = { writer := [WriterCall.Error "Internal Server Error" 500],
          sent := ["Unhandled event type"],
          posts := [⟨"https://discord/hook", "application/json", "Unhandled event type"⟩],
          log := ["Error sending to Discord: "
                    ++ "failed to send message to Discord, status code: 404"] }
    ∧ responseStatus (webhookHandler "https://discord/hook" (fun m => .ok m.Content)
        (fun _ _ _ => .ok { StatusCode := 404 })
        (.ok { zeroPayload with ObjectKind := "note" })).writer = 500 :=
  ⟨by decide, by decide,
    ((C8_webhookHandler "https://discord/hook" (fun m => .ok m.Content)
      (fun _ _ _ => .ok { StatusCode := 404 })).2.1
      { zeroPayload with ObjectKind := "note" }).2.2.1
      "failed to send message to Discord, status code: 404" (by decide) |>.2.1⟩

/-- C9: `sendToDiscord` returns no error exactly when the POST was made and
answered with status 200 or 204; with any other status it returns an error
whose text contains the decimal status code; a transport error of the POST is
returned unchanged; and a call makes at most one POST. -/
theorem C9_sendToDiscord (url : String)
    (jsonMarshal : DiscordMessage → Except String String)
    (httpPost : String → String → String → Except String Response) (message : String) :
    ((sendToDiscord url jsonMarshal httpPost message).err = none
      ↔ ∃ body resp, jsonMarshal { Content := message } = .ok body
          ∧ httpPost url "application/json" body = .ok resp
          ∧ (resp.StatusCode = 200 ∨ resp.StatusCode = 204))
    ∧ (∀ body resp, jsonMarshal { Content := message } = .ok body →
        httpPost url "application/json" body = .ok resp →
        resp.StatusCode ≠ 200 → resp.StatusCode ≠ 204 →
        ∃ text, (sendToDiscord url jsonMarshal httpPost message).err = some text
          ∧ Contains text (toString resp.StatusCode))
    ∧ (∀ body e, jsonMarshal { Content := message } = .ok body →
        httpPost url "application/json" body = .error e →
        (sendToDiscord url jsonMarshal httpPost message).err = some e)
    ∧ (sendToDiscord url jsonMarshal httpPost message).posts.length ≤ 1 := by
  refine ⟨?_, ?_, ?_, ?_⟩
  · constructor
    · intro h
      unfold sendToDiscord at h
      cases hm : jsonMarshal { Content := message } with
      | error e => simp [hm] at h
      | ok body =>
        cases hp : httpPost url "application/json" body with
        | error e => simp [hm, hp] at h
        | ok resp =>
          refine ⟨body, resp, rfl, hp, ?_⟩
          simp only [hm, hp] at h
          by_cases hc : resp.StatusCode ≠ StatusOK ∧ resp.StatusCode ≠ StatusNoContent
          · simp [hc] at h
          · simp only [StatusOK, StatusNoContent] at hc
            omega
    · rintro ⟨body, resp, hm, hp, hc⟩
      unfold sendToDiscord
      simp only [hm, hp]
      have : ¬ (resp.StatusCode ≠ StatusOK ∧ resp.StatusCode ≠ StatusNoContent) := by
        simp only [StatusOK, StatusNoContent]
        omega
      simp [this]
  · intro body resp hm hp h1 h2
    refine ⟨"failed to send message to Discord, status code: " ++ toString resp.StatusCode,
      ?_, contains_append_right _ (contains_refl _)⟩
    unfold sendToDiscord
    simp only [hm, hp]
    have : resp.StatusCode ≠ StatusOK ∧ resp.StatusCode ≠ StatusNoContent := ⟨h1, h2⟩
    simp [this]
  · intro body e hm hp
    unfold sendToDiscord
    simp only [hm, hp]
  · unfold sendToDiscord
    cases hm : jsonMarshal { Content := message } with
    | error e => simp [hm]
    | ok body =>
      cases hp : httpPost url "application/json" body with
      | error e => simp [hm, hp]
      | ok resp =>
        simp only [hm, hp]
        split <;> simp

/-- Witness of C9: Discord answers 404; the error text ends with "404". -/
theorem C9_sendToDiscord_witness :
    (sendToDiscord "https://discord/hook" (fun m => .ok m.Content)
        (fun _ _ _ => .ok { StatusCode := 404 }) "hi")
      = { err := some "failed to send message to Discord, status code: 404",
          posts := [⟨"https://discord/hook", "application/json", "hi"⟩] }
    ∧ ∃ text, (sendToDiscord "https://discord/hook" (fun m => .ok m.Content)
        (fun _ _ _ => .ok { StatusCode := 404 }) "hi").err = some text
        ∧ Contains text (toString (404 : Int)) :=
  ⟨by decide,
    (C9_sendToDiscord "https://discord/hook" (fun m => .ok m.Content)
      (fun _ _ _ => .ok { StatusCode := 404 }) "hi").2.1 "hi" { StatusCode := 404 } rfl rfl
      (by decide) (by decide)⟩

/-- C10: two payloads that agree on everything but the `Author.AvatarURL` of
their commits and of their merge request are formatted as the same string; and
in a branch push every commit block is built from the payload's own
`UserAvatar` and the commit's ID, author name, URL and message. -/
theorem C10_author_avatar_unused :
    (∀ p q : GitLabWebhookPayload, eraseAuthorAvatars p = eraseAuthorAvatars q →
      formatGitLabWebhookToDiscord p = formatGitLabWebhookToDiscord q)
    ∧ (∀ payload : GitLabWebhookPayload, payload.ObjectKind = "push" →
      HasPrefix payload.Ref "refs/tags/" = false →
      formatGitLabWebhookToDiscord payload
        = "**" ++ payload.UserName ++ "** pushed to branch **" ++ payload.Ref ++ "** in **"
            ++ payload.Project.Name ++ "**:\n\n"
          ++ concatAll (payload.Commits.map (commitBlock payload.UserAvatar))
          ++ "ðŸ”— **View changes**: <" ++ payload.Project.WebURL ++ "/commits/" ++ payload.After
          ++ ">\n") := by
  refine ⟨?_, format_push_branch⟩
  intro p q h
  rw [← format_eraseAuthorAvatars p, ← format_eraseAuthorAvatars q, h]

/-- Witness of C10: two pushes of one commit that differ in the commit author's
avatar only; both print the top-level avatar "A". -/
theorem C10_author_avatar_unused_witness :
    eraseAuthorAvatars
        { zeroPayload with
          ObjectKind := "push", Ref := "main", UserAvatar := "A",
          Commits := [{ ID := "c1", Message := "m", URL := "u",
                        Author := { Name := "bob", AvatarURL := "B1" } }] }
      = eraseAuthorAvatars
        { zeroPayload with
          ObjectKind := "push", Ref := "main", UserAvatar := "A",
          Commits := [{ ID := "c1", Message := "m", URL := "u",
                        Author := { Name := "bob", AvatarURL := "B2" } }] }
    ∧ formatGitLabWebhookToDiscord
        { zeroPayload with
          ObjectKind := "push", Ref := "main", UserAvatar := "A",
          Commits := [{ ID := "c1", Message := "m", URL := "u",
                        Author := { Name := "bob", AvatarURL := "B1" } }] }
      = formatGitLabWebhookToDiscord
        { zeroPayload with
          ObjectKind := "push", Ref := "main", UserAvatar := "A",
          Commits := [{ ID := "c1", Message := "m", URL := "u",
                        Author := { Name := "bob", AvatarURL := "B2" } }] }
    ∧ formatGitLabWebhookToDiscord
        { zeroPayload with
          ObjectKind := "push", Ref := "main", UserAvatar := "A",
          Commits := [{ ID := "c1", Message := "m", URL := "u",
                        Author := { Name := "bob", AvatarURL := "B2" } }] }
      = "**** pushed to branch **main** in ****:\n\n"
        ++ "â€¢ **Commit ID**: c1\n  _by bob_ ![avatar](A)\n  [Commit URL](u)\n  ```\nm\n```"
        ++ "ðŸ”— **View changes**: </commits/>\n" :=
  ⟨by decide, C10_author_avatar_unused.1 _ _ (by decide), by decide⟩

end GitlabWebhookDiscord
